import Mathlib

/-!
Verification development for the `agentx` repository's fluent HTML builder and
design-system composition engine.

The definitions below are a shallow embedding of `src/lib/universal/fluent-html.ts`
(the HTML AST, escaping, attribute serialization, child flattening, the internal
`el` primitive, and the minimized and pretty renderers), of the head-merge logic
in `src/lib/natural-html/design-system/natural.ts`, of the starter design system
in `src/lib/universal/fluent-ds-starter.ts`, and of the slot-validation contract
of the design-system runtime (`fluent-ds.ts`, modelled from the specification
where the runtime source itself is not available).

Modelling conventions:
- JavaScript objects used as attribute maps are embedded as insertion-ordered
  association lists `List (String × AttrValue)` with pairwise-distinct keys
  (JS object keys are unique).
- JS `undefined` list/attr fields on AST nodes are collapsed to `[]`: every
  consumer in the source reads them through `?? []`, so the two are
  observationally identical.
- Thrown `Error(msg)` is embedded as `Except.error msg`.
- An imperative builder-callback child (a function receiving an `emit`
  callback) is embedded by the sequence of children it passes to `emit`,
  in call order; `emit` returns nothing, so a builder's behaviour is exactly
  that sequence.
-/

/-- JS attribute values: `string | number | boolean | null | undefined`
(`AttrValue` in fluent-html.ts). -/
inductive AttrValue where
  | str (s : String)
  | num (n : Int)
  | bool (b : Bool)
  | null
  | undef
deriving DecidableEq, Repr

/-- The HTML AST of fluent-html.ts (`HtmlAst`). `element` stores attrs
pre-sorted at construction; `isVoid` mirrors the optional `void` flag. -/
inductive HtmlAst where
  | fragment (children : List HtmlAst)
  | element (tag : String) (attrs : List (String × AttrValue))
      (children : List HtmlAst) (isVoid : Bool)
  | text (text : String)
  | raw (html : String)
  | comment (text : String)
  | doctype

/-- `RawHtml`: a rendered-HTML wrapper pairing the eagerly computed minimized
string with the optionally retained AST. -/
structure RawHtml where
  __rawHtml : String
  __ast : Option HtmlAst

/-- The recursive `Child` type of fluent-html.ts:
`string | number | boolean | null | undefined | RawHtml | DomNodeLike | Child[] | ChildBuilder`.
A `DomNodeLike` is any object carrying a numeric `nodeType`; a builder is
represented by the children it emits, in call order. -/
inductive Child where
  | str (s : String)
  | num (n : Int)
  | bool (b : Bool)
  | null
  | undef
  | raw (r : RawHtml)
  | dom (nodeType : Int)
  | list (cs : List Child)
  | builder (emits : List Child)

/-- Result elements of `flattenChildren`: `string | RawHtml | DomNodeLike`. -/
inductive FlatChild where
  | str (s : String)
  | raw (r : RawHtml)
  | dom (nodeType : Int)

/-- Raw-policy modes (`RawPolicy.mode`). -/
inductive RawMode where
  | permissive
  | devStrict
deriving DecidableEq, Repr

/-- `RawPolicy`: `{ mode?: "permissive" | "dev-strict" }`. -/
structure RawPolicy where
  mode : Option RawMode
deriving DecidableEq, Repr

/-- The initial module-level policy `{ mode: "permissive" }`. -/
def defaultRawPolicy : RawPolicy := { mode := some .permissive }

/-- `setRawPolicy(policy)` replaces the stored policy with
`{ ...rawPolicy, ...policy }`; modelled as a pure update of the prior policy. -/
def setRawPolicy (prior update : RawPolicy) : RawPolicy :=
  { mode := match update.mode with
            | some m => some m
            | none => prior.mode }

/-- `trustedRaw(html)` wraps the string verbatim with a `raw` AST node. -/
def trustedRaw (html : String) : RawHtml :=
  { __rawHtml := html, __ast := some (.raw html) }

/-- `raw(html, hint?)`: throws when the active policy mode is `"dev-strict"`,
otherwise defers to `trustedRaw`. -/
def raw (policy : RawPolicy) (html : String) (hint : Option String) :
    Except String RawHtml :=
  if policy.mode = some .devStrict then
    .error (match hint with
            | some h => "raw() is blocked by dev-strict policy: " ++ h
            | none => "raw() is blocked by dev-strict policy")
  else
    .ok (trustedRaw html)

/-- `String.prototype.replaceAll(pattern, r)` specialised to a one-character
pattern `c`: a single left-to-right pass replacing each occurrence of `c`
by `r` (replacement text is never rescanned). -/
def replaceAllChar (c : Char) (r : List Char) : List Char → List Char
  | [] => []
  | x :: xs =>
      if x = c then r ++ replaceAllChar c r xs
      else x :: replaceAllChar c r xs

/-- The escaping chain of `escapeHtml` at the character-list level:
`&` then `<` then `>` then `"` then `'`, each by one `replaceAll` pass. -/
def escapeHtmlData (l : List Char) : List Char :=
  replaceAllChar '\'' "&#39;".data
    (replaceAllChar '"' "&quot;".data
      (replaceAllChar '>' "&gt;".data
        (replaceAllChar '<' "&lt;".data
          (replaceAllChar '&' "&amp;".data l))))

/-- `escapeHtml(value)`: the source's chain
`value.replaceAll("&","&amp;").replaceAll("<","&lt;").replaceAll(">","&gt;").replaceAll("\"","&quot;").replaceAll("'","&#39;")`. -/
def escapeHtml (value : String) : String :=
  ⟨escapeHtmlData value.data⟩

/-- `escapeAttr(value)` is `escapeHtml(value)` in the source. -/
def escapeAttr (value : String) : String := escapeHtml value

/-- Character-wise specification of HTML escaping: each of the five special
characters maps to its entity, every other character to itself. Used to state
that the sequential `replaceAll` chain escapes each character exactly once. -/
def escChar (c : Char) : List Char :=
  if c = '&' then "&amp;".data
  else if c = '<' then "&lt;".data
  else if c = '>' then "&gt;".data
  else if c = '"' then "&quot;".data
  else if c = '\'' then "&#39;".data
  else [c]

mutual
/-- The `visit` worker of `flattenChildren`, giving the flat children each
`Child` contributes, in order: `null`/`undefined`/`false` and `true` vanish,
builders contribute what they emit, arrays are expanded recursively, `RawHtml`
and DOM-likes pass through, and remaining primitives are stringified. -/
def visitChild : Child → List FlatChild
  | .null => []
  | .undef => []
  | .bool false => []
  | .builder emits => visitChildList emits
  | .list cs => visitChildList cs
  | .raw r => [.raw r]
  | .dom n => [.dom n]
  | .bool true => []
  | .str s => [.str s]
  | .num n => [.str (toString n)]

/-- Visits a list of children in order, concatenating their contributions. -/
def visitChildList : List Child → List FlatChild
  | [] => []
  | c :: cs => visitChild c ++ visitChildList cs
end

/-- `flattenChildren(children)`: one synchronous pass over the children. -/
def flattenChildren (children : List Child) : List FlatChild :=
  visitChildList children

/-- JS `String(v)` on an attribute value. -/
def attrValueToJsString : AttrValue → String
  | .str s => s
  | .num n => toString n
  | .bool true => "true"
  | .bool false => "false"
  | .null => "null"
  | .undef => "undefined"

/-- Lexicographic code-unit comparison of two character lists, as used by the
default JS `Array.prototype.sort()` on strings. -/
def charListLeb : List Char → List Char → Bool
  | [], _ => true
  | _ :: _, [] => false
  | a :: as, b :: bs =>
      if a < b then true
      else if b < a then false
      else charListLeb as bs

/-- Lexicographic string comparison (`a <= b` in JS default sort order). -/
def strLeb (a b : String) : Bool := charListLeb a.data b.data

/-- The sort order used for attribute keys, as a decidable relation. -/
def strLe (a b : String) : Prop := strLeb a b = true

instance : DecidableRel strLe := fun a b => inferInstanceAs (Decidable (strLeb a b = true))

/-- `Object.keys(attrs).sort()`: the attribute keys in ascending lexicographic
order (insertion sort; keys are pairwise distinct, so any sort agrees). -/
def sortKeys (keys : List String) : List String :=
  keys.insertionSort strLe

/-- The loop body of `serializeAttrs` for one sorted key `k`: skip
`null`/`undefined`/`false`, append ` k` for `true`, append ` k="escaped"`
otherwise. -/
def serAttrStep (attrs : List (String × AttrValue)) (s k : String) : String :=
  match attrs.lookup k with
  | none => s
  | some .null => s
  | some .undef => s
  | some (.bool false) => s
  | some (.bool true) => s ++ " " ++ k
  | some v => s ++ " " ++ k ++ "=\"" ++ escapeAttr (attrValueToJsString v) ++ "\""

/-- `serializeAttrs(attrs)`: walks the sorted keys, skipping
`null`/`undefined`/`false` values, emitting ` k` for `true` and
` k="escaped"` otherwise. -/
def serializeAttrs (attrs : List (String × AttrValue)) : String :=
  (sortKeys (attrs.map Prod.fst)).foldl (serAttrStep attrs) ""

/-- The per-key entry of `attrsToAst` for one sorted key `k`. -/
def astAttrEntry (a : List (String × AttrValue)) (k : String) :
    Option (String × AttrValue) :=
  match a.lookup k with
  | none => none
  | some .null => none
  | some .undef => none
  | some (.bool false) => none
  | some (.bool true) => some (k, .bool true)
  | some v => some (k, v)

/-- `attrsToAst(a)`: the sorted, filtered attribute pairs stored on an
element AST node (`true` kept as a boolean marker, other kept values as-is). -/
def attrsToAst (a : List (String × AttrValue)) : List (String × AttrValue) :=
  (sortKeys (a.map Prod.fst)).filterMap (astAttrEntry a)

/-- The loop body of `childrenToAst` over the flattened children: strings
become `text` nodes, `RawHtml` contributes its retained AST (or a `raw` node
from its cached string), a DOM-like throws, and no other shape exists after
flattening (the source's final `unsupported child type` throw is unreachable
for values of the declared `Child` type). -/
def astOfFlatChildren : List FlatChild → Except String (List HtmlAst)
  | [] => .ok []
  | .str s :: rest =>
      (astOfFlatChildren rest).map (fun r => .text s :: r)
  | .raw rh :: rest =>
      (astOfFlatChildren rest).map (fun r => (rh.__ast.getD (.raw rh.__rawHtml)) :: r)
  | .dom _ :: _ =>
      .error "Fluent server error: DomNodeLike not supported here."

/-- `childrenToAst(children)`: flatten, then convert each flat child. -/
def childrenToAst (children : List Child) : Except String (List HtmlAst) :=
  astOfFlatChildren (flattenChildren children)

/-- The `VOID_ELEMENTS` set. -/
def VOID_ELEMENTS : List String :=
  ["area", "base", "br", "col", "embed", "hr", "img", "input", "link",
   "meta", "param", "source", "track", "wbr"]

/-- `t.toLowerCase()` (character-wise). -/
def jsToLower (s : String) : String := ⟨s.data.map Char.toLower⟩

/-- `isVoidElement(t)`. -/
def isVoidElement (t : String) : Bool := VOID_ELEMENTS.contains (jsToLower t)

/-- The attribute text fragment of a serialized open tag, as built by
`renderAstMinimized` / `openTag`: ` k` for `true`, ` k="escaped"` otherwise. -/
def attrTextOf (attrs : List (String × AttrValue)) : String :=
  attrs.foldl (fun s kv =>
    match kv.2 with
    | .bool true => s ++ " " ++ kv.1
    | v => s ++ " " ++ kv.1 ++ "=\"" ++ escapeAttr (attrValueToJsString v) ++ "\"") ""

mutual
/-- `renderAstMinimized(node)`: concatenating renderer with no whitespace. -/
def renderAstMinimized : HtmlAst → String
  | .fragment cs => renderAstMinimizedList cs
  | .doctype => "<!doctype html>"
  | .comment t => "<!--" ++ escapeHtml t ++ "-->"
  | .raw h => h
  | .text t => escapeHtml t
  | .element tagName attrs children isVoid =>
      if isVoid then "<" ++ tagName ++ attrTextOf attrs ++ ">"
      else
        "<" ++ tagName ++ attrTextOf attrs ++ ">" ++
          renderAstMinimizedList children ++ "</" ++ tagName ++ ">"

/-- `node.children.map(renderAstMinimized).join("")`. -/
def renderAstMinimizedList : List HtmlAst → String
  | [] => ""
  | c :: cs => renderAstMinimized c ++ renderAstMinimizedList cs
end

/-- Parts accepted by the `render` helpers: `string | RawHtml`. -/
inductive RenderPart where
  | str (s : String)
  | raw (r : RawHtml)

/-- `.join("")` on a list of strings. -/
def joinStrings : List String → String
  | [] => ""
  | s :: rest => s ++ joinStrings rest

/-- `render(...parts)`: concatenates strings and cached `__rawHtml` values. -/
def render (parts : List RenderPart) : String :=
  joinStrings (parts.map (fun p =>
    match p with
    | .str s => s
    | .raw r => r.__rawHtml))

/-- The internal `el(tag, ...args)` primitive with the attrs/children split
already resolved (`isAttrs` dispatch is static for the calls modelled here):
void tags skip `childrenToAst` entirely (their children are dropped and the
AST stores no children); non-void tags convert the children, which can throw. -/
def el (tagName : String) (attrsArg : Option (List (String × AttrValue)))
    (kids : List Child) : Except String RawHtml :=
  match (if isVoidElement tagName then Except.ok [] else childrenToAst kids) with
  | .error e => .error e
  | .ok childAsts =>
      let ast : HtmlAst :=
        .element tagName
          (match attrsArg with
           | some a => attrsToAst a
           | none => [])
          childAsts (isVoidElement tagName)
      .ok { __rawHtml := renderAstMinimized ast, __ast := some ast }

/-- The `doctype()` convenience primitive. -/
def doctypeRaw : RawHtml :=
  { __rawHtml := renderAstMinimized .doctype, __ast := some .doctype }

/-- The `comment(s)` convenience primitive. -/
def commentRaw (s : String) : RawHtml :=
  { __rawHtml := renderAstMinimized (.comment s), __ast := some (.comment s) }

/-- The pretty renderer's indentation unit (two spaces). -/
def indentUnit : String := "  "

/-- `indentUnit.repeat(depth)`. -/
def padOf : Nat → String
  | 0 => ""
  | n + 1 => padOf n ++ indentUnit

/-- `isRawBlockTag(t)`: `script`, `style`, `pre`, `textarea`. -/
def isRawBlockTag (t : String) : Bool :=
  let n := jsToLower t
  n == "script" || n == "style" || n == "pre" || n == "textarea"

/-- `s.replaceAll("\r\n", "\n")` (leftmost, non-overlapping). -/
def replCRLF : List Char → List Char
  | [] => []
  | '\r' :: '\n' :: rest => '\n' :: replCRLF rest
  | c :: rest => c :: replCRLF rest

/-- `split("\n")` on a character list. -/
def splitNl : List Char → List (List Char)
  | [] => [[]]
  | c :: cs =>
      match splitNl cs with
      | [] => [[]]
      | l :: ls => if c = '\n' then [] :: l :: ls else (c :: l) :: ls

/-- `s.replaceAll("\r\n", "\n").split("\n")`. -/
def jsSplitLines (s : String) : List String :=
  (splitNl (replCRLF s.data)).map (fun l => (⟨l⟩ : String))

/-- JS `String.prototype.trim()` (drop leading and trailing whitespace). -/
def jsTrim (s : String) : String :=
  ⟨((s.data.dropWhile Char.isWhitespace).reverse.dropWhile Char.isWhitespace).reverse⟩

/-- `shouldInlineTextOnly(n)` on an element's void flag and children: void or
childless nodes inline; otherwise only a single text child without newlines
whose trimmed length is at most 80. -/
def shouldInlineTextOnly (isVoid : Bool) (kids : List HtmlAst) : Bool :=
  if isVoid then true
  else
    match kids with
    | [] => true
    | [HtmlAst.text t] =>
        if t.data.contains '\n' then false
        else (jsTrim t).length ≤ 80
    | [_] => false
    | _ => false

/-- `openTag(n)` of the pretty renderer. -/
def openTagStr (tagName : String) (attrs : List (String × AttrValue)) : String :=
  "<" ++ tagName ++ attrTextOf attrs ++ ">"

/-- `closeTag(n)` of the pretty renderer. -/
def closeTagStr (tagName : String) : String := "</" ++ tagName ++ ">"

mutual
/-- The `emit(n, depth)` worker of `renderAstPretty`, returning the lines it
pushes. Raw nodes are split into physical lines and indented; elements inline
a single short text child, emit raw-block (`script`/`style`/`pre`/`textarea`)
content verbatim-indented, and otherwise recurse one level deeper. -/
def emitPretty : HtmlAst → Nat → List String
  | .fragment cs, depth => emitPrettyList cs depth
  | .doctype, depth => [padOf depth ++ "<!doctype html>"]
  | .comment t, depth => [padOf depth ++ "<!--" ++ escapeHtml t ++ "-->"]
  | .raw h, depth => (jsSplitLines h).map (fun rl => padOf depth ++ rl)
  | .text t, depth => [padOf depth ++ escapeHtml t]
  | .element tagName attrs kids isVoid, depth =>
      let pad := padOf depth
      if isVoid then [pad ++ openTagStr tagName attrs]
      else
        match kids with
        | [] => [pad ++ openTagStr tagName attrs ++ closeTagStr tagName]
        | _ =>
            if !isRawBlockTag tagName && shouldInlineTextOnly isVoid kids then
              match kids with
              | [HtmlAst.text t] =>
                  [pad ++ openTagStr tagName attrs ++ escapeHtml t ++ closeTagStr tagName]
              | _ => []
            else
              [pad ++ openTagStr tagName attrs] ++
                (if isRawBlockTag tagName then emitRawBlockKids kids depth
                 else emitPrettyList kids (depth + 1)) ++
                [pad ++ closeTagStr tagName]

/-- Children of a raw-block element: text and raw children are split into
lines and indented one unit under the element's pad; other children are
emitted one level deeper. -/
def emitRawBlockKids : List HtmlAst → Nat → List String
  | [], _ => []
  | c :: cs, depth =>
      (match c with
       | .text t => (jsSplitLines t).map (fun l => padOf depth ++ indentUnit ++ l)
       | .raw h => (jsSplitLines h).map (fun l => padOf depth ++ indentUnit ++ l)
       | other => emitPretty other (depth + 1)) ++ emitRawBlockKids cs depth

/-- Emits a list of siblings at the same depth. -/
def emitPrettyList : List HtmlAst → Nat → List String
  | [], _ => []
  | c :: cs, depth => emitPretty c depth ++ emitPrettyList cs depth
end

/-- `renderAstPretty(root)`: joined lines with a trailing newline (empty
output for no lines). -/
def renderAstPretty (root : HtmlAst) : String :=
  match emitPretty root 0 with
  | [] => ""
  | ls => String.intercalate "\n" ls ++ "\n"

/-- `renderPretty(...parts)`: strings become raw parts; `RawHtml` contributes
its retained AST (or a raw node from its cached string); the parts render as
one fragment. -/
def renderPretty (parts : List RenderPart) : String :=
  renderAstPretty (.fragment (parts.map (fun p =>
    match p with
    | .str s => .raw s
    | .raw r => r.__ast.getD (.raw r.__rawHtml))))


/-! ### The starter design system (`src/lib/universal/fluent-ds-starter.ts`)

The region and layout render functions below are direct translations of
`starterMainRegion.render` and `starterLayout.render`. The parts of the
pipeline implemented by the design-system runtime `fluent-ds.ts` (whose source
is not available, only its callers and tests) are modelled from the spec and
are marked as such: the render-context binding of `ctx.cls` to the naming
strategy with the current scope kind, and the `page()` document assembly
(doctype + html(head(uaDependency tags), body(layout output))), per spec
sections 4.3 and 4.6. -/

/-- The PicoCSS CDN URL registered as the starter uaDependency. -/
def picoCssUrl : String := "https://cdn.jsdelivr.net/npm/@picocss/pico@2/css/pico.min.css"

/-- Modelled from the spec: the render context handed to region/layout render
functions by the missing `fluent-ds.ts` runtime — `cls` bound to the naming
strategy with the current scope kind, plus the raw naming strategy. -/
structure StarterCtx where
  clsFn : String → String
  elemIdFn : String → String → String

/-- The starter naming strategy `className`: `(suggested, kind) => kind-suggested`. -/
def starterClassName (suggested kind : String) : String := kind ++ "-" ++ suggested
/-- The starter naming strategy `elemIdValue`: `(suggested, kind) => kind-suggested`. -/
def starterElemIdValue (suggested kind : String) : String := kind ++ "-" ++ suggested

/-- Modelled from the spec: the context seen inside a region render
(`ctx.cls` uses kind `"region"`). -/
def regionCtx : StarterCtx :=
  { clsFn := fun s => starterClassName s "region", elemIdFn := starterElemIdValue }
/-- Modelled from the spec: the context seen inside a layout render
(`ctx.cls` uses kind `"layout"`). -/
def layoutCtx : StarterCtx :=
  { clsFn := fun s => starterClassName s "layout", elemIdFn := starterElemIdValue }

/-- `starterMainRegion.render`: `main({class, id}, h1(title), lead? div.lead(lead) : null, section.content(content))`. -/
def starterMainRegionRender (ctx : StarterCtx)
    (title : StarterCtx → Except String RawHtml)
    (lead : Option (StarterCtx → Except String RawHtml))
    (content : StarterCtx → Except String RawHtml) : Except String RawHtml := do
  let t ← title ctx
  let h1v ← el "h1" none [.raw t]
  let leadChild ← match lead with
    | none => pure Child.null
    | some lf => do
        let lv ← lf ctx
        let dv ← el "div" (some [("class", .str (ctx.clsFn "lead"))]) [.raw lv]
        pure (Child.raw dv)
  let cv ← content ctx
  let secv ← el "section" (some [("class", .str (ctx.clsFn "content"))]) [.raw cv]
  el "main" (some [("class", .str (ctx.clsFn "main")), ("id", .str (ctx.elemIdFn "main" "region"))])
    [.raw h1v, leadChild, .raw secv]

/-- `starterLayout.render`: `section({class, id}, api.region("Main", {title, content, lead?}))`. -/
def starterLayoutRender (ctx : StarterCtx) (regionMain : Except String RawHtml) :
    Except String RawHtml := do
  let m ← regionMain
  el "section" (some [("class", .str (ctx.clsFn "shell")), ("id", .str (ctx.elemIdFn "shell" "layout"))])
    [.raw m]

/-- The fixture title slot builder: `() => h.trustedRaw("Starter DS")`. -/
def fixtureTitleSlot : StarterCtx → Except String RawHtml := fun _ => pure (trustedRaw "Starter DS")
/-- The fixture lead slot builder: `() => h.p("PicoCSS-powered starter.")`. -/
def fixtureLeadSlot : StarterCtx → Except String RawHtml := fun _ => el "p" none [.str "PicoCSS-powered starter."]
/-- The fixture content slot builder: `() => h.p("Hello from the starter design system.")`. -/
def fixtureContentSlot : StarterCtx → Except String RawHtml := fun _ => el "p" none [.str "Hello from the starter design system."]

/-- Modelled from the spec: `page("Starter", {}, {slots})` document assembly —
render the layout body, emit the registered text/css uaDependency as a
stylesheet link in the head, and assemble
`doctype + html(head(link), body(layoutOutput))` (spec section 4.6; the
`fluent-ds.ts` runtime source is missing). -/
def starterPage : Except String RawHtml := do
  let bodyContent ← starterLayoutRender layoutCtx
    (starterMainRegionRender regionCtx fixtureTitleSlot (some fixtureLeadSlot) fixtureContentSlot)
  let linkEl ← el "link" (some [("href", .str picoCssUrl), ("rel", .str "stylesheet")]) []
  let headEl ← el "head" none [.raw linkEl]
  let bodyEl ← el "body" none [.raw bodyContent]
  let htmlEl ← el "html" none [.raw headEl, .raw bodyEl]
  let ast := HtmlAst.fragment [.doctype, htmlEl.__ast.getD (.raw htmlEl.__rawHtml)]
  pure { __rawHtml := renderAstMinimized ast, __ast := some ast }

/-- `h.renderPretty(ds.page(...))` for the fixture invocation. -/
def starterPagePretty : Except String String := starterPage.map (fun r => renderPretty [.raw r])

/-- The string `renderPretty` actually produces for the starter fixture page
under the renderer of `fluent-html.ts` as it stands in the source. -/
def starterActualPretty : String :=
  "<!doctype html>\n<html>\n  <head>\n    <link href=\"https://cdn.jsdelivr.net/npm/@picocss/pico@2/css/pico.min.css\" rel=\"stylesheet\">\n  </head>\n  <body>\n    <section class=\"layout-shell\" id=\"layout-shell\">\n      <main class=\"region-main\" id=\"region-main\">\n        <h1>\n          Starter DS\n        </h1>\n        <div class=\"region-lead\">\n          <p>PicoCSS-powered starter.</p>\n        </div>\n        <section class=\"region-content\">\n          <p>Hello from the starter design system.</p>\n        </section>\n      </main>\n    </section>\n  </body>\n</html>\n"

/-- The expected document asserted by `fluent-ds-starter_test.ts` (the test
compares against this after `.trim()`; a trailing newline is appended here
because `renderAstPretty` always ends its non-empty output with one). -/
def starterFixturePretty : String :=
  "<!doctype html>\n<html>\n  <head>\n    <link href=\"https://cdn.jsdelivr.net/npm/@picocss/pico@2/css/pico.min.css\" rel=\"stylesheet\">\n  </head>\n  <body>\n    <section class=\"layout-shell\" id=\"layout-shell\">\n      <main class=\"region-main\" id=\"region-main\">\n        <h1>Starter DS</h1>\n        <div class=\"region-lead\">\n          <p>PicoCSS-powered starter.</p>\n        </div>\n        <section class=\"region-content\">\n          <p>Hello from the starter design system.</p>\n        </section>\n      </main>\n    </section>\n  </body>\n</html>\n"

/-! ### Head-slot merging (`naturalDesignSystem` in
`src/lib/natural-html/design-system/natural.ts`) -/

/-- `HeadSlotInput`: `{ title?, meta?, styles?, scripts? }` (spec section 3);
a field the caller did not set is `none`. -/
structure HeadSlotInput where
  title : Option String
  meta : Option (List RawHtml)
  styles : Option (List RawHtml)
  scripts : Option (List RawHtml)

/-- Modelled from the spec: the `headSlots` normalizer exported by the missing
`fluent-patterns.ts`; the spec describes `HeadSlotInput` only as the record of
caller-supplied head fields, so normalization carries the supplied fields
through unchanged. -/
def headSlotsNormalize (i : HeadSlotInput) : HeadSlotInput := i

/-- The natural design system's default reset stylesheet
(`h.style(...)` in `naturalDesignSystem`); the construction cannot throw
(its only child is a string), so the `getD` fallback is never taken. -/
def naturalResetStyle : RawHtml :=
  (el "style" none
    [.str "\n        html \x7b scroll-behavior: smooth; \x7d\n        * \x7b box-sizing: border-box; margin: 0; padding: 0; \x7d\n      "]).toOption.getD
    (trustedRaw "")

/-- The `defaultHead` of `naturalDesignSystem`: only `styles` is set. -/
def naturalDefaultHead : HeadSlotInput :=
  { title := none, meta := none, styles := some [naturalResetStyle], scripts := none }

/-- `mergeHead(input?)` from `naturalDesignSystem`: start from a copy of
`defaultHead`; for each field present on the normalized overrides, replace the
default only when the value is truthy (`if (value) merged[key] = value`). JS
truthiness: the empty string is falsy, every array — even an empty one — is
truthy. -/
def mergeHead (input : Option HeadSlotInput) : HeadSlotInput :=
  let overrides :=
    match input with
    | some i => headSlotsNormalize i
    | none => { title := none, meta := none, styles := none, scripts := none }
  { title :=
      match overrides.title with
      | some t => if t ≠ "" then some t else naturalDefaultHead.title
      | none => naturalDefaultHead.title,
    meta :=
      match overrides.meta with
      | some m => some m
      | none => naturalDefaultHead.meta,
    styles :=
      match overrides.styles with
      | some ss => some ss
      | none => naturalDefaultHead.styles,
    scripts :=
      match overrides.scripts with
      | some sc => some sc
      | none => naturalDefaultHead.scripts }

/-! ### Slot validation (design-system runtime contract)

The `fluent-ds.ts` runtime that implements `slots`, `defineRegion`,
`defineLayout` and the validation step is not among the available sources —
only its callers (`fluent-ds-starter.ts`, `fluent-ds-corpus.ts`,
`design-system/canonical.ts`) and tests are. The validation below is
modelled from the spec (sections 4.3 and 8, "Slot completeness law"). -/

/-- A caller-supplied slot-map value: a callable slot builder, or any
non-callable value bound to the slot name. -/
inductive SlotVal where
  | callable
  | notCallable
deriving DecidableEq, Repr

/-- `SlotSpec`: the declared required and optional slot names of a region or
layout (disjoint by declaration). -/
structure SlotSpec where
  required : List String
  optional : List String

/-- The failure conditions of slot validation (spec section 7). -/
inductive SlotCondition where
  | missingRequiredSlot (slot : String) (owner : String)
  | unknownSlot (slot : String) (owner : String)
deriving DecidableEq, Repr

/-- The design system's unknown-slot policy: `"throw" | "ignore"`. -/
inductive UnknownSlotMode where
  | throwOnUnknown
  | ignoreUnknown
deriving DecidableEq, Repr

/-- Modelled from the spec: the default unknown-slot policy is `"throw"`
(spec section 4.3; `createCanonicalFluentDs` also sets it explicitly). -/
def defaultUnknownSlotMode : UnknownSlotMode := .throwOnUnknown

/-- Modelled from the spec: the validation step performed whenever a region or
layout is invoked with a caller-supplied slot map. Every required name must be
present and callable, else the call fails with `MissingRequiredSlot(slot,
owner)`; then, under the `"throw"` policy, any supplied name outside
`required ∪ optional` fails with `UnknownSlot(slot, owner)`. -/
def validateSlots (owner : String) (spec : SlotSpec)
    (supplied : List (String × SlotVal)) (mode : UnknownSlotMode) :
    Except SlotCondition Unit :=
  match spec.required.find? (fun r => supplied.lookup r != some SlotVal.callable) with
  | some r => .error (.missingRequiredSlot r owner)
  | none =>
      match mode with
      | .ignoreUnknown => .ok ()
      | .throwOnUnknown =>
          match supplied.find?
              (fun kv => !(spec.required.contains kv.1 || spec.optional.contains kv.1)) with
          | some kv => .error (.unknownSlot kv.1 owner)
          | none => .ok ()

/-- The slot spec shared by `starterMainRegion` and `starterLayout`:
`required: ["title", "content"], optional: ["lead"]`. -/
def starterSlotSpec : SlotSpec :=
  { required := ["title", "content"], optional := ["lead"] }

/-! ## Supporting lemmas -/

theorem replaceAllChar_append (c : Char) (r a b : List Char) :
    replaceAllChar c r (a ++ b) = replaceAllChar c r a ++ replaceAllChar c r b := by
  induction a with
  | nil => simp [replaceAllChar]
  | cons x xs ih =>
      by_cases hx : x = c <;> simp [replaceAllChar, hx, ih, List.append_assoc]

theorem escapeHtmlData_append (a b : List Char) :
    escapeHtmlData (a ++ b) = escapeHtmlData a ++ escapeHtmlData b := by
  simp [escapeHtmlData, replaceAllChar_append]

theorem escapeHtmlData_singleton (x : Char) : escapeHtmlData [x] = escChar x := by
  by_cases h1 : x = '&'
  · subst h1; decide
  by_cases h2 : x = '<'
  · subst h2; decide
  by_cases h3 : x = '>'
  · subst h3; decide
  by_cases h4 : x = '"'
  · subst h4; decide
  by_cases h5 : x = '\''
  · subst h5; decide
  simp [escapeHtmlData, replaceAllChar, escChar, h1, h2, h3, h4, h5]

theorem escapeHtmlData_eq_flatMap (l : List Char) :
    escapeHtmlData l = l.flatMap escChar := by
  induction l with
  | nil => rfl
  | cons x xs ih =>
      have : x :: xs = [x] ++ xs := rfl
      rw [this, escapeHtmlData_append, escapeHtmlData_singleton, ih]
      simp [List.flatMap_cons]

theorem visitChildList_append (xs ys : List Child) :
    visitChildList (xs ++ ys) = visitChildList xs ++ visitChildList ys := by
  induction xs with
  | nil => simp [visitChildList]
  | cons c cs ih => simp [visitChildList, ih, List.append_assoc]

theorem charListLeb_total (as bs : List Char) :
    charListLeb as bs = true ∨ charListLeb bs as = true := by
  induction as generalizing bs with
  | nil => left; rfl
  | cons a as ih =>
      cases bs with
      | nil => right; rfl
      | cons b bs =>
          rcases lt_trichotomy a b with h | h | h
          · left; simp [charListLeb, h]
          · subst h
            rcases ih bs with h2 | h2
            · left; simp [charListLeb, lt_irrefl, h2]
            · right; simp [charListLeb, lt_irrefl, h2]
          · right; simp [charListLeb, h]

theorem charListLeb_antisymm (as : List Char) : ∀ bs,
    charListLeb as bs = true → charListLeb bs as = true → as = bs := by
  induction as with
  | nil =>
      intro bs h1 h2
      cases bs with
      | nil => rfl
      | cons b bs => simp [charListLeb] at h2
  | cons a as ih =>
      intro bs h1 h2
      cases bs with
      | nil => simp [charListLeb] at h1
      | cons b bs =>
          rcases lt_trichotomy a b with h | h | h
          · simp [charListLeb, h, lt_asymm h] at h2
          · subst h
            have h1' : charListLeb as bs = true := by
              simpa [charListLeb, lt_irrefl] using h1
            have h2' : charListLeb bs as = true := by
              simpa [charListLeb, lt_irrefl] using h2
            rw [ih bs h1' h2']
          · simp [charListLeb, h, lt_asymm h] at h1

theorem charListLeb_trans (as : List Char) : ∀ bs cs,
    charListLeb as bs = true → charListLeb bs cs = true →
    charListLeb as cs = true := by
  induction as with
  | nil => intro bs cs h1 h2; rfl
  | cons a as ih =>
      intro bs cs h1 h2
      cases bs with
      | nil => simp [charListLeb] at h1
      | cons b bs =>
          cases cs with
          | nil => simp [charListLeb] at h2
          | cons c cs =>
              rcases lt_trichotomy a b with hab | hab | hab
              · rcases lt_trichotomy b c with hbc | hbc | hbc
                · simp [charListLeb, lt_trans hab hbc]
                · subst hbc; simp [charListLeb, hab]
                · simp [charListLeb, hbc, lt_asymm hbc] at h2
              · subst hab
                have h1' : charListLeb as bs = true := by
                  simpa [charListLeb, lt_irrefl] using h1
                rcases lt_trichotomy a c with hac | hac | hac
                · simp [charListLeb, hac]
                · subst hac
                  have h2' : charListLeb bs cs = true := by
                    simpa [charListLeb, lt_irrefl] using h2
                  simpa [charListLeb, lt_irrefl] using ih bs cs h1' h2'
                · simp [charListLeb, hac, lt_asymm hac] at h2
              · simp [charListLeb, hab, lt_asymm hab] at h1

instance : IsTotal String strLe :=
  ⟨fun a b => charListLeb_total a.data b.data⟩

instance : IsTrans String strLe :=
  ⟨fun a b c h1 h2 => charListLeb_trans a.data b.data c.data h1 h2⟩

theorem string_data_inj {a b : String} (h : a.data = b.data) : a = b :=
  congrArg String.mk h

instance : IsAntisymm String strLe :=
  ⟨fun a b h1 h2 => string_data_inj (charListLeb_antisymm a.data b.data h1 h2)⟩

theorem sortKeys_eq_of_perm {ks₁ ks₂ : List String} (h : ks₁.Perm ks₂) :
    sortKeys ks₁ = sortKeys ks₂ :=
  List.eq_of_perm_of_sorted
    ((List.perm_insertionSort strLe ks₁).trans
      (h.trans (List.perm_insertionSort strLe ks₂).symm))
    (List.sorted_insertionSort strLe ks₁)
    (List.sorted_insertionSort strLe ks₂)

theorem lookup_eq_of_perm :
    ∀ {l₁ l₂ : List (String × AttrValue)}, l₁.Perm l₂ →
      (l₁.map Prod.fst).Nodup → ∀ k, l₁.lookup k = l₂.lookup k := by
  intro l₁ l₂ h
  induction h with
  | nil => intro _ _; rfl
  | @cons x t₁ t₂ h ih =>
      intro nd k
      obtain ⟨kx, v⟩ := x
      have nd' : kx ∉ t₁.map Prod.fst ∧ (t₁.map Prod.fst).Nodup := by
        simpa [List.nodup_cons] using nd
      cases hak : (k == kx) <;> simp [List.lookup, hak, ih nd'.2 k]
  | swap x y t =>
      intro nd k
      obtain ⟨kx, vx⟩ := x
      obtain ⟨ky, vy⟩ := y
      have hne : ky ≠ kx := by
        have hnd : (ky :: kx :: t.map Prod.fst).Nodup := by simpa using nd
        intro hq
        exact (List.nodup_cons.mp hnd).1 (by rw [hq]; exact List.mem_cons_self _ _)
      cases hay : (k == ky) <;> cases hax : (k == kx) <;>
        simp [List.lookup, hay, hax]
      exact absurd ((eq_of_beq hay).symm.trans (eq_of_beq hax)) hne
  | trans h₁ h₂ ih₁ ih₂ =>
      intro nd k
      have nd₂ := (h₁.map Prod.fst).nodup nd
      rw [ih₁ nd k, ih₂ nd₂ k]

theorem serAttrStep_congr {l₁ l₂ : List (String × AttrValue)}
    (hl : ∀ k, l₁.lookup k = l₂.lookup k) (s k : String) :
    serAttrStep l₁ s k = serAttrStep l₂ s k := by
  unfold serAttrStep; rw [hl k]

theorem foldl_serAttrStep_congr {l₁ l₂ : List (String × AttrValue)}
    (hl : ∀ k, l₁.lookup k = l₂.lookup k) :
    ∀ (ks : List String) (s : String),
      ks.foldl (serAttrStep l₁) s = ks.foldl (serAttrStep l₂) s := by
  intro ks
  induction ks with
  | nil => intro s; rfl
  | cons k ks ih =>
      intro s
      rw [List.foldl_cons, List.foldl_cons, serAttrStep_congr hl, ih]

theorem astAttrEntry_congr {l₁ l₂ : List (String × AttrValue)}
    (hl : ∀ k, l₁.lookup k = l₂.lookup k) (k : String) :
    astAttrEntry l₁ k = astAttrEntry l₂ k := by
  unfold astAttrEntry; rw [hl k]

theorem filterMap_astAttrEntry_congr {l₁ l₂ : List (String × AttrValue)}
    (hl : ∀ k, l₁.lookup k = l₂.lookup k) :
    ∀ ks : List String,
      ks.filterMap (astAttrEntry l₁) = ks.filterMap (astAttrEntry l₂) := by
  intro ks
  induction ks with
  | nil => rfl
  | cons k ks ih =>
      rw [List.filterMap_cons, List.filterMap_cons, astAttrEntry_congr hl, ih]

/-! ## Claim theorems -/

/-- C1 counterexample: calling the void tag `br` with a non-empty child list
does NOT fail at construction time — it succeeds, the AST retains no children,
and the output is plain `<br>`; the supplied child is silently dropped,
contradicting the claimed `VoidElementWithChildren` construction-time error. -/
theorem c1_counterexample_br_child_constructs_ok :
    el "br" none [Child.str "x"] =
      .ok { __rawHtml := "<br>", __ast := some (.element "br" [] [] true) } := rfl

/-- C1 (amended): for every void tag, calling the tag function with any
children (and any attributes) succeeds; `childrenToAst` is never invoked, the
element AST stores no children, and the serialized output is the bare open
tag with no closing tag — the children are silently dropped, and no
`VoidElementWithChildren` error exists in the code. -/
theorem c1_void_elements_silently_drop_children (t : String)
    (h : isVoidElement t = true) (attrsArg : Option (List (String × AttrValue)))
    (kids : List Child) :
    el t attrsArg kids =
      .ok { __rawHtml := "<" ++ t ++ attrTextOf (match attrsArg with
              | some a => attrsToAst a
              | none => []) ++ ">",
            __ast := some (.element t (match attrsArg with
              | some a => attrsToAst a
              | none => []) [] true) } := by
  simp [el, h, renderAstMinimized]

/-- Witness for C1: the amended theorem applied to `br` with a child. -/
theorem c1_witness :
    isVoidElement "br" = true ∧
      el "br" none [Child.str "hello"] =
        .ok { __rawHtml := "<br>", __ast := some (.element "br" [] [] true) } :=
  ⟨rfl, c1_void_elements_silently_drop_children "br" rfl none [Child.str "hello"]⟩

/-- C4: plain strings are escaped exactly once — the sequential `replaceAll`
chain of `escapeHtml` equals the character-wise map replacing each of the
five characters `& < > " '` by its entity (so no output of one pass is
re-escaped by a later pass); attribute values use the identical function;
`div(raw("<b>ok</b>"))` under the default policy renders verbatim as
`<div><b>ok</b></div>`; and `div("<script>alert(1)</script>")` renders with
the script text entity-escaped. -/
theorem c4_escaping_once_and_raw_verbatim :
    (∀ s : String, escapeHtml s = ⟨s.data.flatMap escChar⟩) ∧
    (∀ s : String, escapeAttr s = escapeHtml s) ∧
    ((raw defaultRawPolicy "<b>ok</b>" none).bind
        (fun rh => el "div" none [Child.raw rh])).map RawHtml.__rawHtml =
      .ok "<div><b>ok</b></div>" ∧
    (el "div" none [Child.str "<script>alert(1)</script>"]).map RawHtml.__rawHtml =
      .ok "<div>&lt;script&gt;alert(1)&lt;/script&gt;</div>" :=
  ⟨fun s => congrArg String.mk (escapeHtmlData_eq_flatMap s.data),
   fun _ => rfl, rfl, rfl⟩

/-- C7: child flattening drops `null`, `undefined`, `false` and `true`
wherever they occur; a nested array child is expanded in place, recursively
(by repeated application); and a builder child contributes exactly the
children it emits, spliced in place in call order — all in one synchronous
pass (`flattenChildren` is a pure function of the child list). -/
theorem c7_flattening_drops_and_splices :
    (∀ xs ys, flattenChildren (xs ++ Child.null :: ys) = flattenChildren (xs ++ ys)) ∧
    (∀ xs ys, flattenChildren (xs ++ Child.undef :: ys) = flattenChildren (xs ++ ys)) ∧
    (∀ xs ys, flattenChildren (xs ++ Child.bool false :: ys) = flattenChildren (xs ++ ys)) ∧
    (∀ xs ys, flattenChildren (xs ++ Child.bool true :: ys) = flattenChildren (xs ++ ys)) ∧
    (∀ xs ys cs, flattenChildren (xs ++ Child.list cs :: ys) =
      flattenChildren (xs ++ (cs ++ ys))) ∧
    (∀ xs ys es, flattenChildren (xs ++ Child.builder es :: ys) =
      flattenChildren (xs ++ (es ++ ys))) := by
  refine ⟨?_, ?_, ?_, ?_, ?_, ?_⟩ <;>
    intros <;>
      simp [flattenChildren, visitChildList_append, visitChildList, visitChild]

/-- C8: after `setRawPolicy({mode:"dev-strict"})` (applied to any prior
policy), every `raw()` call fails with the raw-policy-violation error (its
message begins `raw() is blocked by dev-strict policy`) instead of returning
a `RawHtml`; `trustedRaw` takes no policy and is unaffected; and under the
default permissive policy `raw(html)` returns exactly `trustedRaw(html)`. -/
theorem c8_dev_strict_blocks_raw :
    (∀ (prior : RawPolicy) (html : String) (hint : Option String),
      ∃ msg, raw (setRawPolicy prior { mode := some RawMode.devStrict }) html hint =
          .error msg ∧
        "raw() is blocked by dev-strict policy".data <+: msg.data) ∧
    (∀ (html : String) (hint : Option String),
      raw defaultRawPolicy html hint = .ok (trustedRaw html)) := by
  constructor
  · intro prior html hint
    cases hint with
    | none => exact ⟨_, rfl, List.prefix_refl _⟩
    | some hintStr =>
        refine ⟨_, rfl, ?_⟩
        show "raw() is blocked by dev-strict policy".data <+:
          ("raw() is blocked by dev-strict policy: " ++ hintStr).data
        rw [String.data_append]
        have hsplit : ("raw() is blocked by dev-strict policy: ").data =
            ("raw() is blocked by dev-strict policy").data ++ (": ").data := by decide
        rw [hsplit, List.append_assoc]
        exact List.prefix_append _ _
  · intro html hint; rfl

/-- C3: attribute serialization is insertion-order independent — any two
attribute maps that are permutations of each other (JS object keys are
distinct) produce the same sorted AST attribute list and the same serialized
attribute text; `div({z:"3",a:"1",m:"2"},"x")` serializes as
`<div a="1" m="2" z="3">x</div>`; and
`input({disabled:true,hidden:false,value:"x"})` serializes as
`<input disabled value="x">`, which contains ` disabled` and ` value="x"`
and does not contain ` hidden`. -/
theorem c3_attrs_sorted_and_boolean_law :
    (∀ l₁ l₂ : List (String × AttrValue), l₁.Perm l₂ → (l₁.map Prod.fst).Nodup →
      attrsToAst l₁ = attrsToAst l₂ ∧ serializeAttrs l₁ = serializeAttrs l₂) ∧
    (el "div" (some [("z", .str "3"), ("a", .str "1"), ("m", .str "2")])
        [Child.str "x"]).map RawHtml.__rawHtml = .ok "<div a=\"1\" m=\"2\" z=\"3\">x</div>" ∧
    ((el "input" (some [("disabled", .bool true), ("hidden", .bool false),
          ("value", .str "x")]) []).map RawHtml.__rawHtml = .ok "<input disabled value=\"x\">" ∧
      (" disabled".data.IsInfix "<input disabled value=\"x\">".data ∧
        ¬ " hidden".data.IsInfix "<input disabled value=\"x\">".data ∧
        " value=\"x\"".data.IsInfix "<input disabled value=\"x\">".data)) := by
  refine ⟨?_, rfl, rfl, by decide, by decide, by decide⟩
  intro l₁ l₂ hp nd
  have hk : sortKeys (l₁.map Prod.fst) = sortKeys (l₂.map Prod.fst) :=
    sortKeys_eq_of_perm (hp.map Prod.fst)
  have hl := lookup_eq_of_perm hp nd
  constructor
  · unfold attrsToAst; rw [hk]; exact filterMap_astAttrEntry_congr hl _
  · unfold serializeAttrs; rw [hk]; exact foldl_serAttrStep_congr hl _ _

/-- Witness for C3: the permutation-invariance part applied to a concrete
pair of attribute maps differing only in insertion order. -/
theorem c3_witness :
    attrsToAst [("z", AttrValue.str "3"), ("a", AttrValue.str "1")] =
        attrsToAst [("a", AttrValue.str "1"), ("z", AttrValue.str "3")] ∧
      serializeAttrs [("z", AttrValue.str "3"), ("a", AttrValue.str "1")] =
        serializeAttrs [("a", AttrValue.str "1"), ("z", AttrValue.str "3")] :=
  c3_attrs_sorted_and_boolean_law.1
    [("z", AttrValue.str "3"), ("a", AttrValue.str "1")]
    [("a", AttrValue.str "1"), ("z", AttrValue.str "3")]
    (by decide) (by decide)

/-- C9: every successful tag-function call returns a `RawHtml` whose eagerly
cached minimized string is exactly the minimized rendering of its retained
AST; consequently `render()` (which concatenates cached strings) equals
re-serializing the retained ASTs with the minimized renderer. -/
theorem c9_cached_string_consistent_with_ast :
    (∀ (t : String) (a : Option (List (String × AttrValue))) (kids : List Child)
        (r : RawHtml), el t a kids = .ok r →
        ∃ ast, r.__ast = some ast ∧ r.__rawHtml = renderAstMinimized ast) ∧
    (∀ parts : List RawHtml,
        (∀ p ∈ parts, ∃ ast, p.__ast = some ast ∧ p.__rawHtml = renderAstMinimized ast) →
        render (parts.map RenderPart.raw) =
          joinStrings (parts.map (fun p =>
            renderAstMinimized (p.__ast.getD (.raw p.__rawHtml))))) := by
  constructor
  · intro t a kids r h
    unfold el at h
    cases hc : (if isVoidElement t then Except.ok ([] : List HtmlAst)
        else childrenToAst kids) with
    | error e => rw [hc] at h; simp at h
    | ok cs =>
        rw [hc] at h
        simp only [Except.ok.injEq] at h
        subst h
        exact ⟨_, rfl, rfl⟩
  · intro parts hp
    induction parts with
    | nil => rfl
    | cons p ps ih =>
        obtain ⟨ast, ha, hs⟩ := hp p (List.mem_cons_self _ _)
        have ih' := ih (fun q hq => hp q (List.mem_cons_of_mem _ hq))
        simp only [List.map_cons, render, joinStrings] at *
        rw [ha]
        simp only [Option.getD_some]
        rw [← hs, ih']

/-- Witness for C9: both parts applied at concrete inputs. -/
theorem c9_witness :
    (∃ ast, (RawHtml.mk "<div>x</div>"
        (some (HtmlAst.element "div" [] [HtmlAst.text "x"] false))).__ast = some ast ∧
      (RawHtml.mk "<div>x</div>"
        (some (HtmlAst.element "div" [] [HtmlAst.text "x"] false))).__rawHtml =
        renderAstMinimized ast) ∧
    render [RenderPart.raw (trustedRaw "<hr>")] =
      joinStrings [renderAstMinimized ((trustedRaw "<hr>").__ast.getD
        (.raw (trustedRaw "<hr>").__rawHtml))] :=
  ⟨c9_cached_string_consistent_with_ast.1 "div" none [Child.str "x"] _ rfl,
   c9_cached_string_consistent_with_ast.2 [trustedRaw "<hr>"]
     (fun p hp => by
        cases hp with
        | head => exact ⟨.raw "<hr>", rfl, rfl⟩
        | tail _ h => cases h)⟩

/-- C10: whenever the flattened children of a (non-void) server-side
tag-function call contain a DOM-like object, node construction throws
`Fluent server error: DomNodeLike not supported here.` rather than rendering
or skipping the value. (After flattening, only strings, `RawHtml` and
DOM-likes exist, so the source's final `unsupported child type` throw is
unreachable for values of the declared `Child` type.) -/
theorem c10_dom_children_throw :
    (∀ flat : List FlatChild, (∃ n, FlatChild.dom n ∈ flat) →
        astOfFlatChildren flat =
          .error "Fluent server error: DomNodeLike not supported here.") ∧
    (∀ t : String, isVoidElement t = false →
      ∀ (a : Option (List (String × AttrValue))) (kids : List Child),
        (∃ n, FlatChild.dom n ∈ flattenChildren kids) →
        el t a kids =
          .error "Fluent server error: DomNodeLike not supported here.") := by
  have part1 : ∀ flat : List FlatChild, (∃ n, FlatChild.dom n ∈ flat) →
      astOfFlatChildren flat =
        .error "Fluent server error: DomNodeLike not supported here." := by
    intro flat
    induction flat with
    | nil => rintro ⟨n, hn⟩; cases hn
    | cons c rest ih =>
        rintro ⟨n, hn⟩
        cases c with
        | dom m => rfl
        | str s =>
            have hmem : FlatChild.dom n ∈ rest := by
              rcases List.mem_cons.mp hn with h | h
              · exact absurd h (by simp)
              · exact h
            simp [astOfFlatChildren, ih ⟨n, hmem⟩, Except.map]
        | raw rh =>
            have hmem : FlatChild.dom n ∈ rest := by
              rcases List.mem_cons.mp hn with h | h
              · exact absurd h (by simp)
              · exact h
            simp [astOfFlatChildren, ih ⟨n, hmem⟩, Except.map]
  refine ⟨part1, ?_⟩
  intro t ht a kids hex
  unfold el childrenToAst
  rw [ht]
  simp only [Bool.false_eq_true, if_false]
  rw [part1 _ hex]

/-- Witness for C10: both parts applied at a concrete DOM-like child. -/
theorem c10_witness :
    astOfFlatChildren [FlatChild.dom 0] =
        .error "Fluent server error: DomNodeLike not supported here." ∧
      el "div" none [Child.dom 0] =
        .error "Fluent server error: DomNodeLike not supported here." :=
  ⟨c10_dom_children_throw.1 [FlatChild.dom 0] ⟨0, List.Mem.head _⟩,
   c10_dom_children_throw.2 "div" rfl none [Child.dom 0] ⟨0, List.Mem.head _⟩⟩

/-- C2 (modelled from the spec; the `fluent-ds.ts` runtime source is absent):
slot validation fails with `MissingRequiredSlot(slot, owner)` whenever some
declared required name is missing from the supplied map or bound to a
non-callable value; when all required slots are present and callable but some
supplied name is neither required nor optional, validation under the
`"throw"` policy — the default — fails with `UnknownSlot(slot, owner)`. -/
theorem c2_slot_validation_fails_loud :
    (∀ (owner : String) (spec : SlotSpec) (supplied : List (String × SlotVal))
        (mode : UnknownSlotMode),
      (∃ r ∈ spec.required, supplied.lookup r ≠ some SlotVal.callable) →
      ∃ r, r ∈ spec.required ∧ supplied.lookup r ≠ some SlotVal.callable ∧
        validateSlots owner spec supplied mode =
          .error (.missingRequiredSlot r owner)) ∧
    (∀ (owner : String) (spec : SlotSpec) (supplied : List (String × SlotVal)),
      (∀ r ∈ spec.required, supplied.lookup r = some SlotVal.callable) →
      (∃ kv ∈ supplied, kv.1 ∉ spec.required ∧ kv.1 ∉ spec.optional) →
      ∃ k, (∃ v, (k, v) ∈ supplied) ∧ k ∉ spec.required ∧ k ∉ spec.optional ∧
        validateSlots owner spec supplied .throwOnUnknown =
          .error (.unknownSlot k owner)) ∧
    defaultUnknownSlotMode = .throwOnUnknown := by
  refine ⟨?_, ?_, rfl⟩
  · intro owner spec supplied mode hex
    have hsome : (spec.required.find?
        (fun r => supplied.lookup r != some SlotVal.callable)).isSome := by
      rw [List.find?_isSome]
      obtain ⟨r, hr, hp⟩ := hex
      exact ⟨r, hr, by simpa [bne_iff_ne] using hp⟩
    obtain ⟨r, hfind⟩ := Option.isSome_iff_exists.mp hsome
    refine ⟨r, List.mem_of_find?_eq_some hfind,
      by simpa [bne_iff_ne] using List.find?_some hfind, ?_⟩
    unfold validateSlots
    rw [hfind]
  · intro owner spec supplied hall hex
    have hnone : spec.required.find?
        (fun r => supplied.lookup r != some SlotVal.callable) = none := by
      rw [List.find?_eq_none]
      intro r hr
      simp [hall r hr]
    have hsome : (supplied.find? (fun kv =>
        !(spec.required.contains kv.1 || spec.optional.contains kv.1))).isSome := by
      rw [List.find?_isSome]
      obtain ⟨kv, hkv, h1, h2⟩ := hex
      exact ⟨kv, hkv, by simp [h1, h2]⟩
    obtain ⟨kv, hfind⟩ := Option.isSome_iff_exists.mp hsome
    have hp := List.find?_some hfind
    have hm := List.mem_of_find?_eq_some hfind
    have h1 : kv.1 ∉ spec.required := by
      intro hmem
      simp [hmem] at hp
    have h2 : kv.1 ∉ spec.optional := by
      intro hmem
      simp [hmem] at hp
    refine ⟨kv.1, ⟨kv.2, hm⟩, h1, h2, ?_⟩
    unfold validateSlots
    rw [hnone]
    simp only
    rw [hfind]

/-- Witness for C2: the spec's own example — `required = {a,b}` invoked with
only `{a}` fails with `MissingRequiredSlot("b")`, and with `{a,b,c}` under the
`"throw"` policy fails with `UnknownSlot("c")`. -/
theorem c2_witness :
    (∃ r, r ∈ (SlotSpec.mk ["a", "b"] []).required ∧
      ([("a", SlotVal.callable)] : List (String × SlotVal)).lookup r ≠
        some SlotVal.callable ∧
      validateSlots "Main" (SlotSpec.mk ["a", "b"] []) [("a", SlotVal.callable)]
        .throwOnUnknown = .error (.missingRequiredSlot r "Main")) ∧
    (∃ k, (∃ v, (k, v) ∈ ([("a", SlotVal.callable), ("b", SlotVal.callable),
        ("c", SlotVal.callable)] : List (String × SlotVal))) ∧
      k ∉ (SlotSpec.mk ["a", "b"] []).required ∧
      k ∉ (SlotSpec.mk ["a", "b"] []).optional ∧
      validateSlots "Main" (SlotSpec.mk ["a", "b"] [])
        [("a", SlotVal.callable), ("b", SlotVal.callable), ("c", SlotVal.callable)]
        .throwOnUnknown = .error (.unknownSlot k "Main")) :=
  ⟨c2_slot_validation_fails_loud.1 "Main" (SlotSpec.mk ["a", "b"] [])
      [("a", SlotVal.callable)] .throwOnUnknown ⟨"b", by decide, by decide⟩,
   c2_slot_validation_fails_loud.2.1 "Main" (SlotSpec.mk ["a", "b"] [])
      [("a", SlotVal.callable), ("b", SlotVal.callable), ("c", SlotVal.callable)]
      (by decide) ⟨("c", SlotVal.callable), by decide, by decide, by decide⟩⟩

/-- C6 counterexample: the caller-supplied head field `title: ""` does NOT
override the design system default — `mergeHead` skips falsy override values
(`if (value)`), so the merged title is the default (`none`), not the caller's
empty string. -/
theorem c6_counterexample_falsy_title_kept_default :
    (mergeHead (some (HeadSlotInput.mk (some "") none none none))).title = none ∧
      (HeadSlotInput.mk (some "") none none none).title = some "" ∧
      (none : Option String) ≠ some "" :=
  ⟨rfl, rfl, by decide⟩

/-- C6 (amended): for every head input, each caller-supplied *truthy* head
field overrides the design system's default for that field (a non-empty
title; any supplied array); a falsy or unset caller field falls back to the
design system default; and defaults and overrides for different fields are
present together (a caller title alongside the default reset `<style>`). -/
theorem c6_head_merge_override_wins_default_fills (input : HeadSlotInput) :
    (∀ t, input.title = some t → t ≠ "" →
      (mergeHead (some input)).title = some t) ∧
    (input.title = none → (mergeHead (some input)).title = naturalDefaultHead.title) ∧
    (∀ ss, input.styles = some ss → (mergeHead (some input)).styles = some ss) ∧
    (input.styles = none →
      (mergeHead (some input)).styles = naturalDefaultHead.styles) ∧
    (∀ t, input.title = some t → t ≠ "" → input.styles = none →
      (mergeHead (some input)).title = some t ∧
        (mergeHead (some input)).styles = some [naturalResetStyle]) := by
  refine ⟨?_, ?_, ?_, ?_, ?_⟩
  · intro t ht hne
    simp [mergeHead, headSlotsNormalize, ht, hne]
  · intro ht
    simp [mergeHead, headSlotsNormalize, ht]
  · intro ss hs
    simp [mergeHead, headSlotsNormalize, hs]
  · intro hs
    simp [mergeHead, headSlotsNormalize, hs]
  · intro t ht hne hs
    constructor
    · simp [mergeHead, headSlotsNormalize, ht, hne]
    · simp [mergeHead, headSlotsNormalize, hs, naturalDefaultHead]

/-- Witness for C6: merging a concrete caller title with no caller styles
yields the caller's title together with the default reset style. -/
theorem c6_witness :
    (mergeHead (some (HeadSlotInput.mk (some "My Page") none none none))).title =
        some "My Page" ∧
      (mergeHead (some (HeadSlotInput.mk (some "My Page") none none none))).styles =
        some [naturalResetStyle] :=
  (c6_head_merge_override_wins_default_fills
    (HeadSlotInput.mk (some "My Page") none none none)).2.2.2.2
    "My Page" rfl (by decide) rfl

set_option maxRecDepth 20000 in
/-- C5: the pretty-printed starter page does NOT reproduce the fixture
asserted by `fluent-ds-starter_test.ts`. The pipeline (starter region and
layout renders from the source, document assembly modelled from the spec)
produces `starterActualPretty`, in which the `<h1>` around the raw
`Starter DS` child is block-expanded over three lines, whereas the test
fixture requires the inline `<h1>Starter DS</h1>` — `renderAstPretty` inlines
only a single short *text* child, and `trustedRaw` produces a *raw* child.
Every other line of the document matches the fixture. -/
theorem c5_starter_fixture_not_reproduced :
    starterPagePretty = .ok starterActualPretty ∧
      starterActualPretty ≠ starterFixturePretty :=
  ⟨rfl, by decide⟩
